import Mathlib

/-!
Formal model of the Grizzy opening-hours utilities (the time-utils module)
and of the `useRestaurantStatus` polling hook, together with theorems about
parsing, interval evaluation, duration formatting, the result invariant and
the polling schedule.

JavaScript strings are modelled as `List Char`; a JavaScript number that can
only ever hold an integer or NaN is modelled as `Option Int` with `none`
playing the role of NaN (every comparison involving NaN is false, and NaN
propagates through arithmetic); a possibly-`undefined` string is
`Option (List Char)`; a thrown exception is `Except.error`.
-/

/-- JavaScript strings, modelled as their character lists. -/
abbrev Str := List Char

/-- Character list of a Lean string literal. -/
def str (s : String) : Str := s.data

/-- The apostrophe character (U+0027), used in one of the French messages. -/
def apos : Char := Char.ofNat 39

/-- A JavaScript number that is an integer or NaN: `none` is NaN. -/
abbrev JsNum := Option Int

/-- JS `<` : false whenever either side is NaN. -/
def jsLt : JsNum → JsNum → Bool
  | some a, some b => decide (a < b)
  | _, _ => false

/-- JS `<=` : false whenever either side is NaN. -/
def jsLe : JsNum → JsNum → Bool
  | some a, some b => decide (a ≤ b)
  | _, _ => false

/-- JS `>=` : false whenever either side is NaN. -/
def jsGe : JsNum → JsNum → Bool
  | some a, some b => decide (b ≤ a)
  | _, _ => false

/-- JS `+` on numbers: NaN-propagating. -/
def jsAdd : JsNum → JsNum → JsNum
  | some a, some b => some (a + b)
  | _, _ => none

/-- JS binary `-`: NaN-propagating. -/
def jsSub : JsNum → JsNum → JsNum
  | some a, some b => some (a - b)
  | _, _ => none

/-- JS `*`: NaN-propagating. -/
def jsMul : JsNum → JsNum → JsNum
  | some a, some b => some (a * b)
  | _, _ => none

/-- JS `Math.floor(a / b)` for an integer-or-NaN `a` and a positive integer
constant `b`: flooring division, NaN-propagating. -/
def jsFloorDiv (a : JsNum) (b : Int) : JsNum := a.map (fun v => Int.fdiv v b)

/-- JS `%` (remainder with the sign of the dividend, i.e. truncated), applied
to an integer-or-NaN left operand and an integer constant: NaN-propagating. -/
def jsMod (a : JsNum) (b : Int) : JsNum := a.map (fun v => Int.tmod v b)

/-- Decimal digits of `n`, most significant first, via an explicit fuel so
that the kernel can evaluate it (`natToCharsAux (n+1) n` always suffices). -/
def natToCharsAux : Nat → Nat → Str
  | 0, _ => []
  | Nat.succ fuel, n =>
    if n < 10 then [Nat.digitChar n]
    else natToCharsAux fuel (n / 10) ++ [Nat.digitChar (n % 10)]

/-- JS `Number#toString()` for a non-negative integer value. -/
def natToChars (n : Nat) : Str := natToCharsAux (n + 1) n

/-- JS `Number#toString()` for an integer value. -/
def intToChars (v : Int) : Str :=
  if v < 0 then '-' :: natToChars v.natAbs else natToChars v.natAbs

/-- JS `Number#toString()` for an integer-or-NaN value: NaN prints "NaN". -/
def numToChars : JsNum → Str
  | none => str "NaN"
  | some v => intToChars v

/-- JS `String#padStart(2, "0")`. -/
def padStart2 (s : Str) : Str :=
  if s.length < 2 then List.replicate (2 - s.length) '0' ++ s else s

/-- JS `String#trim()`. -/
def trimChars (s : Str) : Str :=
  ((s.dropWhile Char.isWhitespace).reverse.dropWhile Char.isWhitespace).reverse

/-- Numeric value of a list of decimal digit characters. -/
def digitsVal (ds : Str) : Nat :=
  ds.foldl (fun a c => 10 * a + (c.toNat - 48)) 0

/-- The integer fragment of JS `Number(string)`: whitespace is trimmed, the
empty string is 0, an optionally signed run of decimal digits is its value,
and anything else is NaN (`none`).  Fractional, hexadecimal and exponent
forms of JS numbers never arise from the inputs of this program and are mapped to
NaN here. -/
def jsToNumber (s : Str) : JsNum :=
  let t := trimChars s
  if t = [] then some 0
  else if t.head? = some '-' then
    if t.tail ≠ [] ∧ t.tail.all Char.isDigit then some (-(digitsVal t.tail : Int))
    else none
  else if t.head? = some '+' then
    if t.tail ≠ [] ∧ t.tail.all Char.isDigit then some (digitsVal t.tail : Int)
    else none
  else if t.all Char.isDigit then some (digitsVal t : Int)
  else none

/-- JS `String#split(sep)` for a one-character separator (the source splits
time tokens on ":"). -/
def splitOnChar (sep : Char) : Str → List Str
  | [] => [[]]
  | c :: rest =>
    if c = sep then [] :: splitOnChar sep rest
    else
      match splitOnChar sep rest with
      | [] => [[c]]
      | p :: ps => (c :: p) :: ps

/-- Worker for `jsSplit`, with an explicit fuel so the kernel can evaluate
it; `fuel = s.length + 1` always suffices (a non-empty separator consumes at
least one character per step). -/
def splitAux (sep : Str) : Nat → Str → Str → List Str
  | _, [], acc => [acc.reverse]
  | 0, s, acc => [acc.reverse ++ s]
  | Nat.succ fuel, c :: rest, acc =>
    if List.isPrefixOf sep (c :: rest) then
      acc.reverse :: splitAux sep fuel (List.drop sep.length (c :: rest)) []
    else
      splitAux sep fuel rest (c :: acc)

/-- JS `String#split(sep)` for a non-empty string separator (the source
splits the hours string on " - "). -/
def jsSplit (sep s : Str) : List Str := splitAux sep (s.length + 1) s []

/-- `OpeningStatus` of the source: the record the evaluator returns.  The
string-union `status` field of the source is kept as a string; the two optional
fields model the optional TS fields. -/
structure OpeningStatus where
  isOpen : Bool
  status : Str
  message : Str
  nextOpenTime : Option Str
  timeUntilClose : Option Str
deriving Repr, DecidableEq

/-- `parseRestaurantHours` of the source: splits the hours string on " - ",
trims both sides.  Destructuring `[open, close]` in JS yields `undefined`
(`none`) for a missing component; the pair is (open, close).  The
`RestaurantHours` record of the source cannot be reproduced verbatim
because `open` is a Lean keyword. -/
def parseRestaurantHours (hoursString : Str) : Option Str × Option Str :=
  let parts := (jsSplit (str " - ") hoursString).map trimChars
  (parts[0]?, parts[1]?)

/-- `timeToMinutes` of the source: splits on ":", maps `Number`, returns
`hours * 60 + minutes`.  Calling it on `undefined` (the result of a failed
destructuring) throws a TypeError in JS, modelled as `Except.error`; a
missing or non-numeric component yields NaN, which propagates. -/
def timeToMinutes : Option Str → Except String JsNum
  | none => Except.error "TypeError"
  | some s =>
    Except.ok (jsAdd (jsMul (((splitOnChar ':' s).map jsToNumber)[0]?).join (some 60))
      (((splitOnChar ':' s).map jsToNumber)[1]?).join)

/-- `minutesToTime` of the source: `Math.floor(minutes / 60)` and
`minutes % 60`, each rendered and zero-padded to two characters. -/
def minutesToTime (minutes : JsNum) : Str :=
  let hours := jsFloorDiv minutes 60
  let mins := jsMod minutes 60
  padStart2 (numToChars hours) ++ str ":" ++ padStart2 (numToChars mins)

/-- `getCurrentMoroccoTime` of the source: the current epoch instant shifted
by one hour (Morocco is treated as UTC+1, never adjusted).  Instants are
epoch milliseconds. -/
def getCurrentMoroccoTime (nowMs : Nat) : Nat := nowMs + 1 * 60 * 60 * 1000

/-- JS `Date#getHours()` on an epoch-millisecond instant, for a host whose
local timezone is UTC (the shift to Morocco time is applied explicitly by
`getCurrentMoroccoTime`). -/
def jsGetHours (ms : Nat) : Int := ((ms / 3600000) % 24 : Nat)

/-- JS `Date#getMinutes()` on an epoch-millisecond instant (UTC host). -/
def jsGetMinutes (ms : Nat) : Int := ((ms / 60000) % 60 : Nat)

/-- The minute-of-day the evaluator derives from an instant (source line 73:
`now.getHours() * 60 + now.getMinutes()`). -/
def minuteOfDay (ms : Nat) : Int := jsGetHours ms * 60 + jsGetMinutes ms

/-- `formatTimeUntil` of the source: "N min" below one hour, else "Hh" or
"HhMM" with the remainder zero-padded. -/
def formatTimeUntil (minutes : JsNum) : Str :=
  if jsLt minutes (some 60) then numToChars minutes ++ str " min"
  else
    let hours := jsFloorDiv minutes 60
    let remainingMinutes := jsMod minutes 60
    if remainingMinutes = some 0 then numToChars hours ++ str "h"
    else numToChars hours ++ str "h" ++ padStart2 (numToChars remainingMinutes)

/-- Source line 79: `const isOvernight = closeMinutes < openMinutes`. -/
def isOvernight (openMinutes closeMinutes : JsNum) : Bool :=
  jsLt closeMinutes openMinutes

/-- The French message fragment meaning "open until" (built with an
explicit apostrophe character). -/
def msgOuvertJusqua : Str := str "Ouvert jusqu" ++ [apos] ++ str "à "

/-- Lines 79-155 of `getRestaurantStatus`: the branch structure evaluating
open/closed state once `openMinutes`, `closeMinutes` and `currentMinutes`
are computed.  `currentMinutes` is a genuine integer (it comes from
`getHours`/`getMinutes`), the other two are parsed numbers that may be
NaN. -/
def evalStatus (openMinutes closeMinutes : JsNum) (currentMinutes : Int) :
    OpeningStatus :=
  if isOvernight openMinutes closeMinutes then
    if jsLt (some currentMinutes) closeMinutes then
      let minutesUntilClose := jsSub closeMinutes (some currentMinutes)
      let isClosingSoon := jsLe minutesUntilClose (some 30)
      { isOpen := true
        status := if isClosingSoon then str "closing_soon" else str "open"
        message :=
          if isClosingSoon then
            str "Ferme bientôt (" ++ minutesToTime closeMinutes ++ str ")"
          else msgOuvertJusqua ++ minutesToTime closeMinutes
        nextOpenTime := none
        timeUntilClose := some (formatTimeUntil minutesUntilClose) }
    else if jsGe (some currentMinutes) openMinutes then
      let minutesUntilMidnight := jsSub (some (24 * 60)) (some currentMinutes)
      let minutesUntilClose := jsAdd minutesUntilMidnight closeMinutes
      let isClosingSoon := jsLe minutesUntilClose (some 30)
      { isOpen := true
        status := if isClosingSoon then str "closing_soon" else str "open"
        message :=
          if isClosingSoon then
            str "Ferme bientôt (" ++ minutesToTime closeMinutes ++ str ")"
          else msgOuvertJusqua ++ minutesToTime closeMinutes
        nextOpenTime := none
        timeUntilClose := some (formatTimeUntil minutesUntilClose) }
    else
      { isOpen := false
        status := str "closed"
        message := str "Fermé - Ouvre à " ++ minutesToTime openMinutes
        nextOpenTime := some (minutesToTime openMinutes)
        timeUntilClose := none }
  else
    if jsGe (some currentMinutes) openMinutes &&
        jsLt (some currentMinutes) closeMinutes then
      let minutesUntilClose := jsSub closeMinutes (some currentMinutes)
      let isClosingSoon := jsLe minutesUntilClose (some 30)
      { isOpen := true
        status := if isClosingSoon then str "closing_soon" else str "open"
        message :=
          if isClosingSoon then
            str "Ferme bientôt (" ++ minutesToTime closeMinutes ++ str ")"
          else msgOuvertJusqua ++ minutesToTime closeMinutes
        nextOpenTime := none
        timeUntilClose := some (formatTimeUntil minutesUntilClose) }
    else
      { isOpen := false
        status := str "closed"
        message :=
          if jsLt (some currentMinutes) openMinutes then
            str "Fermé - Ouvre à " ++ minutesToTime openMinutes
          else str "Fermé - Ouvre demain à " ++ minutesToTime openMinutes
        nextOpenTime := some (minutesToTime openMinutes)
        timeUntilClose := none }

/-- `getRestaurantStatus` of the source.  The source reads the system clock
internally (`getCurrentMoroccoTime` calls `new Date()`); that hidden read is
made explicit here as the `nowMs` epoch-millisecond argument.  A thrown
exception is an `Except.error`. -/
def getRestaurantStatus (hoursString : Str) (nowMs : Nat) :
    Except String OpeningStatus := do
  let parsed := parseRestaurantHours hoursString
  let now := getCurrentMoroccoTime nowMs
  let currentMinutes : Int := jsGetHours now * 60 + jsGetMinutes now
  let openMinutes ← timeToMinutes parsed.1
  let closeMinutes ← timeToMinutes parsed.2
  pure (evalStatus openMinutes closeMinutes currentMinutes)

/-- `getStatusColor` of the source: the switch from status to color token. -/
def getStatusColor (status : Str) : Str :=
  if status = str "open" then str "text-green-400"
  else if status = str "closing_soon" then str "text-yellow-400"
  else if status = str "closed" then str "text-red-400"
  else str "text-gray-400"

/-- `getStatusIcon` of the source. -/
def getStatusIcon (isOpen : Bool) : Str :=
  if isOpen then str "🟢" else str "🔴"

/-- The ten decimal digit characters. -/
def digitList : Str := str "0123456789"

/-- The coupling invariant every evaluator result satisfies. -/
def statusInvariant (r : OpeningStatus) : Prop :=
  (r.isOpen = true ↔ (r.status = str "open" ∨ r.status = str "closing_soon")) ∧
  (r.isOpen = true ↔ (r.timeUntilClose.isSome = true ∧ r.nextOpenTime = none)) ∧
  (r.isOpen = false ↔ r.status = str "closed") ∧
  (r.isOpen = false ↔ (r.nextOpenTime.isSome = true ∧ r.timeUntilClose = none))

/-- The firing times of the 60-second interval of the hook within `horizonSec`
seconds of simulated time: `setInterval(updateStatus, 60000)` fires at
t = 60, 120, ...; a tick fires only if the cleanup (`clearInterval`) has
not run, i.e. strictly before the unmount instant. -/
def intervalTicks (unmountSec : Option Nat) (horizonSec : Nat) : List Nat :=
  match unmountSec with
  | none => (List.range (horizonSec / 60)).map (fun k => 60 * (k + 1))
  | some u =>
    (List.range (horizonSec / 60)).filterMap (fun k =>
      if 60 * (k + 1) < u then some (60 * (k + 1)) else none)

/-- Discrete-event model of one `useRestaurantStatus` subscription, per the
source of the hook: on mount the `useState` initializer evaluates
`getRestaurantStatus` and delivers that value to the subscriber; the effect
then runs once, performing a second immediate evaluation (published through
`setStatus`) and starting the 60-second interval; each tick evaluates and
publishes again; `clearInterval` on unmount stops all later ticks.  Each
list entry is (seconds since mount, the published evaluation); the wall
clock at a tick is `startMs + 1000 * t`. -/
def useRestaurantStatusRun (hoursString : Str) (startMs : Nat)
    (unmountSec : Option Nat) (horizonSec : Nat) :
    List (Nat × Except String OpeningStatus) :=
  (0, getRestaurantStatus hoursString startMs) ::
  (0, getRestaurantStatus hoursString startMs) ::
  (intervalTicks unmountSec horizonSec).map
    (fun t => (t, getRestaurantStatus hoursString (startMs + 1000 * t)))

theorem mem_digitList_facts :
    ∀ c ∈ digitList, c.isWhitespace = false ∧ c.isDigit = true ∧ c ≠ ':' ∧
      c ≠ '-' ∧ c ≠ '+' := by decide

theorem digitChar_mem (d : Nat) (h : d < 10) : Nat.digitChar d ∈ digitList := by
  interval_cases d <;> decide

theorem digitChar_val (d : Nat) (h : d < 10) : (Nat.digitChar d).toNat = 48 + d := by
  interval_cases d <;> rfl

theorem natToCharsAux_mem : ∀ fuel n, n < fuel →
    ∀ c ∈ natToCharsAux fuel n, c ∈ digitList := by
  intro fuel
  induction fuel with
  | zero => intro n h; omega
  | succ fuel ih =>
    intro n h c hc
    rw [natToCharsAux] at hc
    by_cases h10 : n < 10
    · rw [if_pos h10] at hc
      simp only [List.mem_singleton] at hc
      exact hc ▸ digitChar_mem n h10
    · rw [if_neg h10] at hc
      rcases List.mem_append.mp hc with h1 | h1
      · exact ih (n / 10) (by omega) c h1
      · simp only [List.mem_singleton] at h1
        exact h1 ▸ digitChar_mem (n % 10) (Nat.mod_lt _ (by omega))

theorem natToChars_mem (n : Nat) : ∀ c ∈ natToChars n, c ∈ digitList :=
  natToCharsAux_mem (n + 1) n (Nat.lt_succ_self n)

theorem natToCharsAux_ne_nil : ∀ fuel n, n < fuel → natToCharsAux fuel n ≠ [] := by
  intro fuel
  induction fuel with
  | zero => intro n h; omega
  | succ fuel ih =>
    intro n h
    rw [natToCharsAux]
    by_cases h10 : n < 10
    · rw [if_pos h10]; simp
    · rw [if_neg h10]; simp

theorem natToChars_ne_nil (n : Nat) : natToChars n ≠ [] :=
  natToCharsAux_ne_nil (n + 1) n (Nat.lt_succ_self n)

theorem digitsVal_append_singleton (xs : Str) (c : Char) :
    digitsVal (xs ++ [c]) = 10 * digitsVal xs + (c.toNat - 48) := by
  simp [digitsVal, List.foldl_append]

theorem natToCharsAux_val : ∀ fuel n, n < fuel →
    digitsVal (natToCharsAux fuel n) = n := by
  intro fuel
  induction fuel with
  | zero => intro n h; omega
  | succ fuel ih =>
    intro n h
    rw [natToCharsAux]
    by_cases h10 : n < 10
    · rw [if_pos h10]
      show digitsVal ([] ++ [Nat.digitChar n]) = n
      rw [digitsVal_append_singleton, digitChar_val n h10]
      simp [digitsVal]
    · rw [if_neg h10]
      rw [digitsVal_append_singleton, ih (n / 10) (by omega),
        digitChar_val (n % 10) (Nat.mod_lt _ (by omega))]
      omega

theorem natToChars_val (n : Nat) : digitsVal (natToChars n) = n :=
  natToCharsAux_val (n + 1) n (Nat.lt_succ_self n)

theorem digitsVal_replicate_zero : ∀ k s, digitsVal (List.replicate k '0' ++ s) = digitsVal s := by
  intro k
  induction k with
  | zero => intro s; rfl
  | succ k ih =>
    intro s
    show digitsVal ('0' :: (List.replicate k '0' ++ s)) = digitsVal s
    simp only [digitsVal, List.foldl_cons]
    have : (10 * 0 + ('0'.toNat - 48)) = 0 := rfl
    rw [this]
    exact ih s

theorem digitsVal_padStart2 (s : Str) : digitsVal (padStart2 s) = digitsVal s := by
  unfold padStart2
  split
  · exact digitsVal_replicate_zero _ s
  · rfl

theorem padStart2_mem (s : Str) (h : ∀ c ∈ s, c ∈ digitList) :
    ∀ c ∈ padStart2 s, c ∈ digitList := by
  intro c hc
  unfold padStart2 at hc
  split at hc
  · rcases List.mem_append.mp hc with h1 | h1
    · rw [List.eq_of_mem_replicate h1]; decide
    · exact h c h1
  · exact h c hc

theorem padStart2_ne_nil (s : Str) : padStart2 s ≠ [] := by
  unfold padStart2
  split
  · next hlen =>
    intro hnil
    rcases List.append_eq_nil.mp hnil with ⟨h1, h2⟩
    have h3 := congrArg List.length h1
    simp only [List.length_replicate, List.length_nil] at h3
    omega
  · next hlen => intro hnil; rw [hnil] at hlen; simp at hlen

theorem dropWhile_eq_self_of (p : Char → Bool) (s : Str)
    (h : ∀ c ∈ s, p c = false) : s.dropWhile p = s := by
  cases s with
  | nil => rfl
  | cons c r =>
    rw [List.dropWhile_cons, h c (List.mem_cons_self c r)]
    simp

theorem trimChars_eq_self (s : Str) (h : ∀ c ∈ s, c.isWhitespace = false) :
    trimChars s = s := by
  unfold trimChars
  rw [dropWhile_eq_self_of _ s h,
    dropWhile_eq_self_of _ s.reverse (fun c hc => h c (List.mem_reverse.mp hc)),
    List.reverse_reverse]

theorem jsToNumber_digits (s : Str) (hne : s ≠ []) (h : ∀ c ∈ s, c ∈ digitList) :
    jsToNumber s = some (digitsVal s : Int) := by
  have htrim : trimChars s = s :=
    trimChars_eq_self s (fun c hc => (mem_digitList_facts c (h c hc)).1)
  unfold jsToNumber
  rw [htrim]
  rw [if_neg hne]
  have hhead : ∃ c r, s = c :: r := by
    cases s with
    | nil => exact absurd rfl hne
    | cons c r => exact ⟨c, r, rfl⟩
  obtain ⟨c, r, rfl⟩ := hhead
  have hc := mem_digitList_facts c (h c (List.mem_cons_self c r))
  rw [if_neg (by simp [hc.2.2.2.1]), if_neg (by simp [hc.2.2.2.2])]
  rw [if_pos]
  exact List.all_eq_true.mpr (fun x hx => (mem_digitList_facts x (h x hx)).2.1)

theorem splitOnChar_no_sep (sep : Char) : ∀ s : Str, (∀ c ∈ s, c ≠ sep) →
    splitOnChar sep s = [s] := by
  intro s
  induction s with
  | nil => intro _; rfl
  | cons c r ih =>
    intro h
    rw [splitOnChar]
    rw [if_neg (h c (List.mem_cons_self c r))]
    rw [ih (fun x hx => h x (List.mem_cons_of_mem c hx))]

theorem splitOnChar_append (sep : Char) (b : Str) (hb : ∀ c ∈ b, c ≠ sep) :
    ∀ a : Str, (∀ c ∈ a, c ≠ sep) →
    splitOnChar sep (a ++ sep :: b) = [a, b] := by
  intro a
  induction a with
  | nil =>
    intro _
    show splitOnChar sep (sep :: b) = [[], b]
    rw [splitOnChar, if_pos rfl, splitOnChar_no_sep sep b hb]
  | cons c r ih =>
    intro h
    show splitOnChar sep (c :: (r ++ sep :: b)) = [c :: r, b]
    rw [splitOnChar, if_neg (h c (List.mem_cons_self c r)),
      ih (fun x hx => h x (List.mem_cons_of_mem c hx))]

theorem fdiv_cast (m n : Nat) : Int.fdiv (Int.ofNat m) (Int.ofNat n) = Int.ofNat (m / n) := by
  cases m with
  | zero => rw [Nat.zero_div]; rfl
  | succ k => rfl

theorem tmod_cast (m n : Nat) : Int.tmod (Int.ofNat m) (Int.ofNat n) = Int.ofNat (m % n) := by
  cases m <;> rfl

theorem numToChars_cast (k : Nat) : numToChars (some (Int.ofNat k)) = natToChars k := by
  simp [numToChars, intToChars]

theorem minutesToTime_cast (m : Nat) :
    minutesToTime (some (Int.ofNat m)) =
      padStart2 (natToChars (m / 60)) ++ str ":" ++ padStart2 (natToChars (m % 60)) := by
  unfold minutesToTime
  show padStart2 (numToChars (jsFloorDiv (some (Int.ofNat m)) 60)) ++ str ":" ++
      padStart2 (numToChars (jsMod (some (Int.ofNat m)) 60)) = _
  have h1 : jsFloorDiv (some (Int.ofNat m)) 60 = some (Int.ofNat (m / 60)) := by
    show some (Int.fdiv (Int.ofNat m) (Int.ofNat 60)) = _
    rw [fdiv_cast]
  have h2 : jsMod (some (Int.ofNat m)) 60 = some (Int.ofNat (m % 60)) := by
    show some (Int.tmod (Int.ofNat m) (Int.ofNat 60)) = _
    rw [tmod_cast]
  rw [h1, h2, numToChars_cast, numToChars_cast]

theorem timeToMinutes_roundtrip (m : Nat) :
    timeToMinutes (some (minutesToTime (some (Int.ofNat m)))) =
      Except.ok (some (Int.ofNat m)) := by
  rw [minutesToTime_cast]
  have hmemA : ∀ c ∈ padStart2 (natToChars (m / 60)), c ∈ digitList :=
    padStart2_mem _ (natToChars_mem _)
  have hmemB : ∀ c ∈ padStart2 (natToChars (m % 60)), c ∈ digitList :=
    padStart2_mem _ (natToChars_mem _)
  have hsplit : splitOnChar ':'
      (padStart2 (natToChars (m / 60)) ++ str ":" ++ padStart2 (natToChars (m % 60))) =
      [padStart2 (natToChars (m / 60)), padStart2 (natToChars (m % 60))] := by
    have heq : padStart2 (natToChars (m / 60)) ++ str ":" ++ padStart2 (natToChars (m % 60)) =
        padStart2 (natToChars (m / 60)) ++ ':' :: padStart2 (natToChars (m % 60)) := by
      simp [str]
    rw [heq]
    exact splitOnChar_append ':' _
      (fun c hc => (mem_digitList_facts c (hmemB c hc)).2.2.1) _
      (fun c hc => (mem_digitList_facts c (hmemA c hc)).2.2.1)
  have hvA : jsToNumber (padStart2 (natToChars (m / 60))) = some (digitsVal (padStart2 (natToChars (m / 60))) : Int) :=
    jsToNumber_digits _ (padStart2_ne_nil _) hmemA
  have hvB : jsToNumber (padStart2 (natToChars (m % 60))) = some (digitsVal (padStart2 (natToChars (m % 60))) : Int) :=
    jsToNumber_digits _ (padStart2_ne_nil _) hmemB
  have hvA2 : jsToNumber (padStart2 (natToChars (m / 60))) = some ((m / 60 : Nat) : Int) := by
    rw [hvA, digitsVal_padStart2, natToChars_val]
  have hvB2 : jsToNumber (padStart2 (natToChars (m % 60))) = some ((m % 60 : Nat) : Int) := by
    rw [hvB, digitsVal_padStart2, natToChars_val]
  simp only [timeToMinutes, hsplit, List.map_cons, List.map_nil, hvA2, hvB2,
    List.getElem?_cons_zero, List.getElem?_cons_succ, Option.join, Option.some_bind,
    id_eq, jsMul, jsAdd]
  have key : ((m / 60 : Nat) : Int) * 60 + ((m % 60 : Nat) : Int) = Int.ofNat m := by
    show ((m / 60 : Nat) : Int) * 60 + ((m % 60 : Nat) : Int) = (m : Int)
    push_cast
    omega
  rw [key]

theorem jsLt_some_some (a b : Int) : jsLt (some a) (some b) = decide (a < b) := rfl
theorem jsLe_some_some (a b : Int) : jsLe (some a) (some b) = decide (a ≤ b) := rfl
theorem jsGe_some_some (a b : Int) : jsGe (some a) (some b) = decide (b ≤ a) := rfl

theorem evalStatus_sameDay (o c now : Int) (hoc : o ≤ c) :
    ((o ≤ now ∧ now < c) →
      (evalStatus (some o) (some c) now).isOpen = true ∧
      (evalStatus (some o) (some c) now).status =
        (if c - now ≤ 30 then str "closing_soon" else str "open") ∧
      (evalStatus (some o) (some c) now).timeUntilClose =
        some (formatTimeUntil (some (c - now))) ∧
      (evalStatus (some o) (some c) now).nextOpenTime = none) ∧
    (¬(o ≤ now ∧ now < c) →
      (evalStatus (some o) (some c) now).isOpen = false ∧
      (evalStatus (some o) (some c) now).status = str "closed") := by
  have hov : isOvernight (some o) (some c) = false := by
    simp only [isOvernight, jsLt_some_some, decide_eq_false_iff_not]
    omega
  constructor
  · rintro ⟨h1, h2⟩
    have hcond : (jsGe (some now) (some o) && jsLt (some now) (some c)) = true := by
      simp only [jsGe_some_some, jsLt_some_some, Bool.and_eq_true, decide_eq_true_eq]
      exact ⟨h1, h2⟩
    simp only [evalStatus, hov, Bool.false_eq_true, if_false, hcond, if_true,
      jsSub, jsLe_some_some]
    refine ⟨by trivial, ?_, by trivial, by trivial⟩
    simp only [decide_eq_true_eq]
  · intro hn
    have hcond : (jsGe (some now) (some o) && jsLt (some now) (some c)) = false := by
      simp only [jsGe_some_some, jsLt_some_some, Bool.and_eq_false_iff,
        decide_eq_false_iff_not]
      omega
    simp only [evalStatus, hov, Bool.false_eq_true, if_false, hcond]
    exact ⟨by trivial, by trivial⟩

theorem evalStatus_overnight (o c now : Int) (hco : c < o) :
    isOvernight (some o) (some c) = true ∧
    (now < c →
      (evalStatus (some o) (some c) now).isOpen = true ∧
      (evalStatus (some o) (some c) now).status =
        (if c - now ≤ 30 then str "closing_soon" else str "open") ∧
      (evalStatus (some o) (some c) now).timeUntilClose =
        some (formatTimeUntil (some (c - now))) ∧
      (evalStatus (some o) (some c) now).nextOpenTime = none) ∧
    (c ≤ now → o ≤ now →
      (evalStatus (some o) (some c) now).isOpen = true ∧
      (evalStatus (some o) (some c) now).status =
        (if (1440 - now) + c ≤ 30 then str "closing_soon" else str "open") ∧
      (evalStatus (some o) (some c) now).timeUntilClose =
        some (formatTimeUntil (some ((1440 - now) + c))) ∧
      (evalStatus (some o) (some c) now).nextOpenTime = none) ∧
    (c ≤ now → now < o →
      (evalStatus (some o) (some c) now).isOpen = false ∧
      (evalStatus (some o) (some c) now).status = str "closed" ∧
      (evalStatus (some o) (some c) now).nextOpenTime =
        some (minutesToTime (some o)) ∧
      (evalStatus (some o) (some c) now).timeUntilClose = none) := by
  have hov : isOvernight (some o) (some c) = true := by
    simp only [isOvernight, jsLt_some_some, decide_eq_true_eq]
    exact hco
  refine ⟨hov, ?_, ?_, ?_⟩
  · intro h1
    have hz : jsLt (some now) (some c) = true := by
      simp only [jsLt_some_some, decide_eq_true_eq]; exact h1
    simp only [evalStatus, hov, if_true, hz, jsSub, jsLe_some_some]
    refine ⟨by trivial, ?_, by trivial, by trivial⟩
    simp only [decide_eq_true_eq]
  · intro h1 h2
    have hz : jsLt (some now) (some c) = false := by
      simp only [jsLt_some_some, decide_eq_false_iff_not]; omega
    have hz2 : jsGe (some now) (some o) = true := by
      simp only [jsGe_some_some, decide_eq_true_eq]; exact h2
    have harith : (24 * 60 : Int) - now + c = (1440 - now) + c := by norm_num
    simp only [evalStatus, hov, if_true, hz, Bool.false_eq_true, if_false, hz2,
      jsSub, jsAdd, jsLe_some_some, harith]
    refine ⟨by trivial, ?_, by trivial, by trivial⟩
    simp only [decide_eq_true_eq]
  · intro h1 h2
    have hz : jsLt (some now) (some c) = false := by
      simp only [jsLt_some_some, decide_eq_false_iff_not]; omega
    have hz2 : jsGe (some now) (some o) = false := by
      simp only [jsGe_some_some, decide_eq_false_iff_not]; omega
    simp only [evalStatus, hov, if_true, hz, Bool.false_eq_true, if_false, hz2]
    exact ⟨by trivial, by trivial, by trivial, by trivial⟩

/-- C6: for the degenerate input openM == closeM the interval is classified
same-day (not overnight) and the evaluator returns isOpen = false with
status "closed" at every current minute (proved for every integer minute,
in particular all of [0, 1439]). -/
theorem evalStatus_openEqClose (v now : Int) :
    isOvernight (some v) (some v) = false ∧
    (evalStatus (some v) (some v) now).isOpen = false ∧
    (evalStatus (some v) (some v) now).status = str "closed" := by
  have hov : isOvernight (some v) (some v) = false := by
    simp only [isOvernight, jsLt_some_some, decide_eq_false_iff_not]
    omega
  have hcond : (jsGe (some now) (some v) && jsLt (some now) (some v)) = false := by
    simp only [jsGe_some_some, jsLt_some_some, Bool.and_eq_false_iff,
      decide_eq_false_iff_not]
    omega
  refine ⟨hov, ?_, ?_⟩ <;>
    simp only [evalStatus, hov, Bool.false_eq_true, if_false, hcond]

theorem inv_open_shape (st msg tuc : Str)
    (hst : st = str "open" ∨ st = str "closing_soon") :
    statusInvariant ⟨true, st, msg, none, some tuc⟩ := by
  rcases hst with h | h <;> subst h <;> simp [statusInvariant] <;> decide

theorem inv_closed_shape (msg nxt : Str) :
    statusInvariant ⟨false, str "closed", msg, some nxt, none⟩ := by
  simp [statusInvariant]
  decide

theorem ite_status_cases (b : Bool) :
    (if b then str "closing_soon" else str "open") = str "open" ∨
    (if b then str "closing_soon" else str "open") = str "closing_soon" := by
  cases b
  · exact Or.inl rfl
  · exact Or.inr rfl

theorem evalStatus_invariant (o c : JsNum) (now : Int) :
    statusInvariant (evalStatus o c now) := by
  unfold evalStatus
  split
  · split
    · exact inv_open_shape _ _ _ (ite_status_cases _)
    · split
      · exact inv_open_shape _ _ _ (ite_status_cases _)
      · exact inv_closed_shape _ _
  · split
    · exact inv_open_shape _ _ _ (ite_status_cases _)
    · exact inv_closed_shape _ _

/-- C9: every `OpeningStatus` the evaluator returns satisfies the coupling
invariant: isOpen = true exactly when status is "open" or "closing_soon"
and exactly when timeUntilClose is present and nextOpenTime absent;
isOpen = false exactly when status is "closed" and exactly when
nextOpenTime is present and timeUntilClose absent. -/
theorem getRestaurantStatus_result_invariant (s : Str) (ms : Nat) (r : OpeningStatus)
    (h : getRestaurantStatus s ms = Except.ok r) : statusInvariant r := by
  simp only [getRestaurantStatus, bind, Except.bind] at h
  cases h1 : timeToMinutes (parseRestaurantHours s).1 with
  | error e => rw [h1] at h; exact absurd h (by simp)
  | ok a =>
    rw [h1] at h
    cases h2 : timeToMinutes (parseRestaurantHours s).2 with
    | error e => rw [h2] at h; exact absurd h (by simp)
    | ok b =>
      rw [h2] at h
      simp only [pure, Except.pure, Except.ok.injEq] at h
      rw [← h]
      exact evalStatus_invariant a b _

/-- C5: for every non-negative minute count n the duration formatter
returns "N min" when n < 60, "Hh" when n is a whole number of hours, and
"HhMM" with the remainder zero-padded otherwise; in particular
formatTimeUntil 45 = "45 min", formatTimeUntil 90 = "1h30" and
formatTimeUntil 120 = "2h". -/
theorem formatTimeUntil_cases (n : Nat) :
    (n < 60 → formatTimeUntil (some (n : Int)) = natToChars n ++ str " min") ∧
    (60 ≤ n → n % 60 = 0 →
      formatTimeUntil (some (n : Int)) = natToChars (n / 60) ++ str "h") ∧
    (60 ≤ n → n % 60 ≠ 0 →
      formatTimeUntil (some (n : Int)) =
        natToChars (n / 60) ++ str "h" ++ padStart2 (natToChars (n % 60))) ∧
    formatTimeUntil (some 45) = str "45 min" ∧
    formatTimeUntil (some 90) = str "1h30" ∧
    formatTimeUntil (some 120) = str "2h" := by
  have hdiv : jsFloorDiv (some (n : Int)) 60 = some ((n / 60 : Nat) : Int) := by
    show some (Int.fdiv (Int.ofNat n) (Int.ofNat 60)) = _
    rw [fdiv_cast]
    rfl
  have hmod : jsMod (some (n : Int)) 60 = some ((n % 60 : Nat) : Int) := by
    show some (Int.tmod (Int.ofNat n) (Int.ofNat 60)) = _
    rw [tmod_cast]
    rfl
  have hcast : numToChars (some ((n : Nat) : Int)) = natToChars n := numToChars_cast n
  refine ⟨?_, ?_, ?_, rfl, rfl, rfl⟩
  · intro h
    have hlt : jsLt (some (n : Int)) (some 60) = true := by
      simp only [jsLt_some_some, decide_eq_true_eq]
      omega
    simp only [formatTimeUntil, hlt, if_true]
    rw [show numToChars (some (n : Int)) = natToChars n from numToChars_cast n]
  · intro h1 h2
    have hlt : jsLt (some (n : Int)) (some 60) = false := by
      simp only [jsLt_some_some, decide_eq_false_iff_not]
      omega
    simp only [formatTimeUntil, hlt, Bool.false_eq_true, if_false, hdiv, hmod]
    rw [if_pos (by rw [h2]; rfl)]
    rw [show numToChars (some ((n / 60 : Nat) : Int)) = natToChars (n / 60) from
      numToChars_cast _]
  · intro h1 h2
    have hlt : jsLt (some (n : Int)) (some 60) = false := by
      simp only [jsLt_some_some, decide_eq_false_iff_not]
      omega
    simp only [formatTimeUntil, hlt, Bool.false_eq_true, if_false, hdiv, hmod]
    rw [if_neg, show numToChars (some ((n / 60 : Nat) : Int)) = natToChars (n / 60) from
      numToChars_cast _, show numToChars (some ((n % 60 : Nat) : Int)) =
      natToChars (n % 60) from numToChars_cast _]
    intro heq
    apply h2
    have h3 := Option.some.inj heq
    omega

/-- C3 (amended): when the " - " separator is absent (the split yields a
single part), evaluation throws synchronously: the close component is
undefined and `timeToMinutes` raises a TypeError, which the evaluator does
not catch.  (A present but non-numeric side raises nothing — see the
counterexample theorem.) -/
theorem missing_separator_throws (s : Str) (ms : Nat)
    (h : (jsSplit (str " - ") s).length = 1) :
    getRestaurantStatus s ms = Except.error "TypeError" := by
  have h2 : ((jsSplit (str " - ") s).map trimChars)[1]? = none := by
    apply List.getElem?_eq_none
    simp [h]
  simp only [getRestaurantStatus, parseRestaurantHours, bind, Except.bind]
  rw [h2]
  cases h0 : ((jsSplit (str " - ") s).map trimChars)[0]? with
  | none => simp [timeToMinutes]
  | some t => simp [timeToMinutes]

/-- C3 counterexample: "aa:bb" is not a valid "HH:MM" token, yet parsing
does not fail: evaluation returns a normal closed result (the NaN produced
by `Number` propagates into the rendered times), so the claim that a
ParseError is surfaced whenever either side is not a valid "HH:MM" token is
false on the code. -/
theorem invalid_token_no_parse_error :
    getRestaurantStatus (str "aa:bb - 18:00") 0 =
      Except.ok ⟨false, str "closed", str "Fermé - Ouvre demain à NaN:NaN",
        some (str "NaN:NaN"), none⟩ := rfl

/-- C7 counterexample: with the sole declared input (the hours string)
fixed, the evaluator returns different results at different internal clock
readings, so the current instant is read internally (via
`getCurrentMoroccoTime`, i.e. `new Date()`), not supplied as an injected
input. -/
theorem clock_read_internally :
    getRestaurantStatus (str "09:00 - 18:00") 0 =
      Except.ok ⟨false, str "closed", str "Fermé - Ouvre à 09:00",
        some (str "09:00"), none⟩ ∧
    getRestaurantStatus (str "09:00 - 18:00") 36000000 =
      Except.ok ⟨true, str "open", msgOuvertJusqua ++ str "18:00",
        none, some (str "7h")⟩ := ⟨rfl, rfl⟩

/-- C7 (amended): the evaluator reads the clock internally, but it is
deterministic over the hours string and the instant read: two evaluations
whose (internally read) instants fall in the same Morocco minute-of-day
yield identical results — in particular identical string and identical
instant always yield an identical StatusResult. -/
theorem getRestaurantStatus_deterministic (s : Str) (ms1 ms2 : Nat)
    (h : minuteOfDay (getCurrentMoroccoTime ms1) =
      minuteOfDay (getCurrentMoroccoTime ms2)) :
    getRestaurantStatus s ms1 = getRestaurantStatus s ms2 := by
  unfold minuteOfDay at h
  simp only [getRestaurantStatus]
  rw [h]

/-- C10: the presentation helpers are total pure functions: the color
mapping sends "open" to the green token, "closing_soon" to yellow,
"closed" to red and any other status to gray; the glyph mapping sends
isOpen = true to the green-dot glyph and false to the red-dot glyph. -/
theorem presentation_helpers_spec :
    getStatusColor (str "open") = str "text-green-400" ∧
    getStatusColor (str "closing_soon") = str "text-yellow-400" ∧
    getStatusColor (str "closed") = str "text-red-400" ∧
    (∀ s : Str, s ≠ str "open" → s ≠ str "closing_soon" → s ≠ str "closed" →
      getStatusColor s = str "text-gray-400") ∧
    getStatusIcon true = str "🟢" ∧ getStatusIcon false = str "🔴" := by
  refine ⟨rfl, rfl, rfl, ?_, rfl, rfl⟩
  intro s h1 h2 h3
  unfold getStatusColor
  rw [if_neg h1, if_neg h2, if_neg h3]

/-- C8 counterexample: subscribing and immediately unsubscribing produces
two published results (the `useState` initializer evaluation delivered as
the initial value, plus the immediate `updateStatus` of the effect), not
exactly one as claimed. -/
theorem hook_two_initial_publications :
    (useRestaurantStatusRun (str "09:00 - 18:00") 0 (some 0) 120).length = 2 ∧
    (useRestaurantStatusRun (str "09:00 - 18:00") 0 (some 0) 120).length ≠ 1 := by
  constructor
  · rfl
  · decide

/-- C8 (amended): on activation the hook evaluates and publishes twice at
time 0; while active it re-evaluates and publishes exactly at 60-second
marks (the k-th tick at 60(k+1) seconds evaluates the clock at that
instant); after deactivation at time u no publication with positive time
at or past u ever occurs — immediate unsubscription yields exactly the two
time-0 publications and nothing after any amount of simulated time. -/
theorem useRestaurantStatus_poller_spec :
    (∀ (h : Str) (s n : Nat), useRestaurantStatusRun h s (some 0) n =
      [(0, getRestaurantStatus h s), (0, getRestaurantStatus h s)]) ∧
    (∀ (h : Str) (s n k : Nat), k < n / 60 →
      (useRestaurantStatusRun h s none n)[k + 2]? =
        some (60 * (k + 1), getRestaurantStatus h (s + 1000 * (60 * (k + 1))))) ∧
    (∀ (h : Str) (s u n t : Nat) (r : Except String OpeningStatus),
      (t, r) ∈ useRestaurantStatusRun h s (some u) n →
      t = 0 ∨ (0 < t ∧ t % 60 = 0 ∧ t < u)) := by
  refine ⟨?_, ?_, ?_⟩
  · intro h s n
    unfold useRestaurantStatusRun
    have hempty : intervalTicks (some 0) n = [] := by
      show (List.range (n / 60)).filterMap _ = []
      apply List.filterMap_eq_nil_iff.mpr
      intro k _
      simp
    rw [hempty]
    rfl
  · intro h s n k hk
    unfold useRestaurantStatusRun
    have hticks : intervalTicks none n =
        (List.range (n / 60)).map (fun k => 60 * (k + 1)) := rfl
    rw [hticks, List.getElem?_cons_succ, List.getElem?_cons_succ,
      List.getElem?_map, List.getElem?_map, List.getElem?_range hk]
    rfl
  · intro h s u n t r hmem
    unfold useRestaurantStatusRun at hmem
    rcases List.mem_cons.mp hmem with h0 | hmem2
    · left
      exact congrArg Prod.fst h0
    rcases List.mem_cons.mp hmem2 with h0 | hmem3
    · left
      exact congrArg Prod.fst h0
    right
    rcases List.mem_map.mp hmem3 with ⟨t2, ht2, heq⟩
    have htt : t2 = t := congrArg Prod.fst heq
    subst htt
    have ht3 : t2 ∈ (List.range (n / 60)).filterMap (fun k =>
        if 60 * (k + 1) < u then some (60 * (k + 1)) else none) := ht2
    rcases List.mem_filterMap.mp ht3 with ⟨k, _, hfk⟩
    by_cases hlt : 60 * (k + 1) < u
    · rw [if_pos hlt] at hfk
      have h5 := Option.some.inj hfk
      omega
    · rw [if_neg hlt] at hfk
      exact absurd hfk (by simp)

/-- C1: for a same-day interval (closeM >= openM) the evaluator reports
isOpen = true exactly when openM <= nowM < closeM; in the open case the
published countdown is formatTimeUntil (closeM - nowM) and the status is
"closing_soon" exactly when closeM - nowM <= 30, else "open"; e.g. hours
"09:00 - 18:00" at 17:45 Morocco time give status "closing_soon" with
timeUntilClose "15 min". -/
theorem sameDay_interval_spec :
    (∀ o c now : Int, o ≤ c →
      ((o ≤ now ∧ now < c) →
        (evalStatus (some o) (some c) now).isOpen = true ∧
        (evalStatus (some o) (some c) now).status =
          (if c - now ≤ 30 then str "closing_soon" else str "open") ∧
        (evalStatus (some o) (some c) now).timeUntilClose =
          some (formatTimeUntil (some (c - now))) ∧
        (evalStatus (some o) (some c) now).nextOpenTime = none) ∧
      (¬(o ≤ now ∧ now < c) →
        (evalStatus (some o) (some c) now).isOpen = false ∧
        (evalStatus (some o) (some c) now).status = str "closed")) ∧
    getRestaurantStatus (str "09:00 - 18:00") 60300000 =
      Except.ok ⟨true, str "closing_soon", str "Ferme bientôt (18:00)",
        none, some (str "15 min")⟩ :=
  ⟨evalStatus_sameDay, rfl⟩

/-- C2: an interval is classified overnight exactly when closeM < openM,
and an overnight interval splits the day into three zones: before the
close time it is open with countdown closeM - nowM; at or after the open
time it is open with countdown (1440 - nowM) + closeM; in between
(closeM <= nowM < openM) it is closed with nextOpenTime the rendered open
time; in both open zones the status is "closing_soon" exactly when the
countdown is <= 30.  The concrete conjunct evaluates "12:00 - 00:15" at
00:10 Morocco time. -/
theorem overnight_interval_spec :
    (∀ o c : Int, isOvernight (some o) (some c) = decide (c < o)) ∧
    (∀ o c now : Int, c < o →
      (now < c →
        (evalStatus (some o) (some c) now).isOpen = true ∧
        (evalStatus (some o) (some c) now).status =
          (if c - now ≤ 30 then str "closing_soon" else str "open") ∧
        (evalStatus (some o) (some c) now).timeUntilClose =
          some (formatTimeUntil (some (c - now))) ∧
        (evalStatus (some o) (some c) now).nextOpenTime = none) ∧
      (c ≤ now → o ≤ now →
        (evalStatus (some o) (some c) now).isOpen = true ∧
        (evalStatus (some o) (some c) now).status =
          (if (1440 - now) + c ≤ 30 then str "closing_soon" else str "open") ∧
        (evalStatus (some o) (some c) now).timeUntilClose =
          some (formatTimeUntil (some ((1440 - now) + c))) ∧
        (evalStatus (some o) (some c) now).nextOpenTime = none) ∧
      (c ≤ now → now < o →
        (evalStatus (some o) (some c) now).isOpen = false ∧
        (evalStatus (some o) (some c) now).status = str "closed" ∧
        (evalStatus (some o) (some c) now).nextOpenTime =
          some (minutesToTime (some o)) ∧
        (evalStatus (some o) (some c) now).timeUntilClose = none)) ∧
    getRestaurantStatus (str "12:00 - 00:15") 83400000 =
      Except.ok ⟨true, str "closing_soon", str "Ferme bientôt (00:15)",
        none, some (str "5 min")⟩ :=
  ⟨fun _ _ => rfl, fun o c now hco => (evalStatus_overnight o c now hco).2, rfl⟩

/-- C4: converting any minute count m in [0, 1439] to a time string and
back yields m: timeToMinutes (minutesToTime m) = m. -/
theorem timeToMinutes_minutesToTime_roundtrip (m : Nat) (_h : m < 1440) :
    timeToMinutes (some (minutesToTime (some (m : Int)))) =
      Except.ok (some (m : Int)) :=
  timeToMinutes_roundtrip m

/-- Witness for C4 at m = 570 (09:30). -/
theorem timeToMinutes_minutesToTime_roundtrip_witness :
    570 < 1440 ∧
    timeToMinutes (some (minutesToTime (some (570 : Int)))) =
      Except.ok (some (570 : Int)) :=
  ⟨by decide, timeToMinutes_minutesToTime_roundtrip 570 (by decide)⟩

/-- Witness for C3 (amended) at the separator-free string "12:00". -/
theorem missing_separator_throws_witness :
    (jsSplit (str " - ") (str "12:00")).length = 1 ∧
    getRestaurantStatus (str "12:00") 0 = Except.error "TypeError" :=
  ⟨rfl, missing_separator_throws (str "12:00") 0 rfl⟩

/-- Witness for C7 (amended): two instants five seconds apart in the same
minute evaluate identically. -/
theorem getRestaurantStatus_deterministic_witness :
    getRestaurantStatus (str "09:00 - 18:00") 60300000 =
      getRestaurantStatus (str "09:00 - 18:00") 60305000 :=
  getRestaurantStatus_deterministic (str "09:00 - 18:00") 60300000 60305000
    (by decide)

/-- Witness for C9 at "09:00 - 18:00", 17:45 Morocco time. -/
theorem getRestaurantStatus_result_invariant_witness :
    statusInvariant ⟨true, str "closing_soon", str "Ferme bientôt (18:00)",
      none, some (str "15 min")⟩ :=
  getRestaurantStatus_result_invariant (str "09:00 - 18:00") 60300000 _ rfl
